import Mathlib

/-!
Shallow embedding of the Smart-Study repository's aggregation and form logic.

Source files modelled:
  * `visualizer.py` — chart transforms (`Visualizer.create_pie_chart`,
    `create_bar_chart`, `create_productivity_chart`, `create_daily_study_chart`).
    Only the data computed for rendering is modelled; the plotting backend is
    outside the program logic.
  * `gui_components.py` — `StudyInputForm.get_values` and `StudyInputForm.clear`.
    Widget state is modelled as an explicit record of field contents.

Python dictionaries are modelled as insertion-ordered association lists, as
CPython dicts preserve insertion order and `d[k] = d.get(k, 0) + v` updates a
present key in place.
-/

/-- A study session record, the dict shape
`{subject, duration, productivity, notes, timestamp}` used by `visualizer.py`. -/
structure Session where
  subject : String
  duration : Int
  productivity : Int
  notes : String
  timestamp : String
deriving DecidableEq, Repr

/-- The date part of a parsed timestamp, as produced by
`datetime.strptime(ts, "%Y-%m-%d %H:%M:%S").date()`. -/
structure Date where
  year : Nat
  month : Nat
  day : Nat
deriving DecidableEq, Repr

/-- Numeric value of an ASCII digit character. -/
def digitVal (c : Char) : Nat := c.toNat - 48

/-- Read exactly four digits (the `%Y` field of `strptime`). -/
def take4Digits : List Char → Option (Nat × List Char)
  | a :: b :: c :: d :: rest =>
    if a.isDigit && b.isDigit && c.isDigit && d.isDigit then
      some (1000 * digitVal a + 100 * digitVal b + 10 * digitVal c + digitVal d, rest)
    else none
  | _ => none

/-- Read one or two digits, greedily (the `%m`, `%d`, `%H`, `%M`, `%S` fields
of `strptime`; each is followed by a non-digit literal or the end of input, so
greedy matching agrees with the regex backtracking `strptime` uses). -/
def take2Digits : List Char → Option (Nat × List Char)
  | [] => none
  | [c] => if c.isDigit then some (digitVal c, []) else none
  | c1 :: c2 :: rest =>
    if c1.isDigit then
      if c2.isDigit then some (10 * digitVal c1 + digitVal c2, rest)
      else some (digitVal c1, c2 :: rest)
    else none

/-- Consume one expected literal character. -/
def expectChar (c : Char) : List Char → Option (List Char)
  | [] => none
  | x :: rest => if x = c then some rest else none

/-- Gregorian leap-year rule used by `datetime`. -/
def isLeapYear (y : Nat) : Bool := y % 4 == 0 && (y % 100 != 0 || y % 400 == 0)

/-- Number of days in a month, as validated by the `datetime` constructor. -/
def daysInMonth (y m : Nat) : Nat :=
  if m = 2 then (if isLeapYear y then 29 else 28)
  else if m = 4 ∨ m = 6 ∨ m = 9 ∨ m = 11 then 30
  else 31

/-- `datetime.strptime(s, "%Y-%m-%d %H:%M:%S").date()`: `none` models the
`ValueError` raised on a string that does not match the format or does not
denote a valid datetime (month out of 1–12, day out of range for the month,
hour over 23, minute or second over 59, year 0000 — `datetime.MINYEAR` is 1). -/
def parseTimestamp (s : String) : Option Date :=
  match take4Digits s.data with
  | none => none
  | some (y, cs) =>
  match expectChar '-' cs with
  | none => none
  | some cs =>
  match take2Digits cs with
  | none => none
  | some (m, cs) =>
  match expectChar '-' cs with
  | none => none
  | some cs =>
  match take2Digits cs with
  | none => none
  | some (d, cs) =>
  match expectChar ' ' cs with
  | none => none
  | some cs =>
  match take2Digits cs with
  | none => none
  | some (hh, cs) =>
  match expectChar ':' cs with
  | none => none
  | some cs =>
  match take2Digits cs with
  | none => none
  | some (mi, cs) =>
  match expectChar ':' cs with
  | none => none
  | some cs =>
  match take2Digits cs with
  | none => none
  | some (se, cs) =>
  if cs = [] ∧ 1 ≤ y ∧ 1 ≤ m ∧ m ≤ 12 ∧ 1 ≤ d ∧ d ≤ daysInMonth y m ∧
      hh ≤ 23 ∧ mi ≤ 59 ∧ se ≤ 59 then
    some ⟨y, m, d⟩
  else none

/-- Two-character zero-padded decimal rendering of `n < 100`. -/
def pad2 (n : Nat) : List Char := [Nat.digitChar (n / 10), Nat.digitChar (n % 10)]

/-- `date.strftime("%m/%d")`: the key used for the daily grouping. -/
def dateKey (d : Date) : String := String.mk (pad2 d.month ++ '/' :: pad2 d.day)

/-- The grouping key a session contributes to, if its timestamp parses. -/
def sessionKey (s : Session) : Option String := (parseTimestamp s.timestamp).map dateKey

/-- `daily_time[date_str] = daily_time.get(date_str, 0) + session['duration']`
on an insertion-ordered dict: update the key in place if present, else append. -/
def insertAdd : List (String × Int) → String → Int → List (String × Int)
  | [], k, v => [(k, v)]
  | (k', v') :: rest, k, v =>
    if k' = k then (k', v' + v) :: rest else (k', v') :: insertAdd rest k v

/-- One iteration of the grouping loop in `create_daily_study_chart`:
`except ValueError: continue` drops sessions whose timestamp does not parse. -/
def dailyStep (acc : List (String × Int)) (s : Session) : List (String × Int) :=
  match sessionKey s with
  | none => acc
  | some k => insertAdd acc k s.duration

/-- The `daily_time` dict built by `Visualizer.create_daily_study_chart`. -/
def dailyTime (sessions : List Session) : List (String × Int) :=
  sessions.foldl dailyStep []

/-- Dict lookup on the association-list model. -/
def lookupKey : List (String × Int) → String → Option Int
  | [], _ => none
  | (k', v) :: rest, k => if k' = k then some v else lookupKey rest k

/-- `Visualizer.create_pie_chart`: `subject_time` is an insertion-ordered dict
(association list); on empty input the function returns before plotting, else
it plots `list(subject_time.values())` labelled by `list(subject_time.keys())`. -/
def create_pie_chart (subject_time : List (String × Int)) :
    Option (List String × List Int) :=
  if subject_time = [] then none
  else some (subject_time.map Prod.fst, subject_time.map Prod.snd)

/-- The comparison `sorted(..., key=lambda x: x[1], reverse=True)` orders by:
`a` may come before `b` exactly when `b`'s time is at most `a`'s. -/
def barLE (a b : String × Int) : Bool := decide (b.2 ≤ a.2)

/-- `sorted(subject_time.items(), key=lambda x: x[1], reverse=True)`: Python's
`sorted` is a stable sort; with `reverse=True` it orders by descending value
keeping the original order of ties, which is stable `mergeSort` under `barLE`. -/
def sorted_subjects (subject_time : List (String × Int)) : List (String × Int) :=
  subject_time.mergeSort barLE

/-- `Visualizer.create_bar_chart`: on empty input return before plotting, else
plot the subject/time pairs sorted by descending time. -/
def create_bar_chart (subject_time : List (String × Int)) :
    Option (List String × List Int) :=
  if subject_time = [] then none
  else
    some ((sorted_subjects subject_time).map Prod.fst,
          (sorted_subjects subject_time).map Prod.snd)

/-- `productivity_scores = [s['productivity'] for s in sessions]`. -/
def productivity_scores (sessions : List Session) : List Int :=
  sessions.map (·.productivity)

/-- `session_numbers = list(range(1, len(sessions) + 1))`. -/
def session_numbers (sessions : List Session) : List Nat :=
  List.range' 1 sessions.length

/-- `avg_productivity = sum(productivity_scores) / len(productivity_scores)`;
Python true division modelled over `ℚ`. -/
def avg_productivity (sessions : List Session) : ℚ :=
  ((productivity_scores sessions).sum : ℚ) / ((productivity_scores sessions).length : ℚ)

/-- `Visualizer.create_productivity_chart`: on empty input return before
plotting, else plot productivity against session number with the average line. -/
def create_productivity_chart (sessions : List Session) :
    Option (List Nat × List Int × ℚ) :=
  if sessions = [] then none
  else some (session_numbers sessions, productivity_scores sessions,
             avg_productivity sessions)

/-- `Visualizer.create_daily_study_chart`: on empty input return before
plotting, else plot the grouped daily totals with keys sorted ascending
(`dates = sorted(daily_time.keys())`, `times = [daily_time[d] for d in dates]`). -/
def create_daily_study_chart (sessions : List Session) :
    Option (List String × List Int) :=
  if sessions = [] then none
  else
    let daily_time := dailyTime sessions
    let dates := (daily_time.map Prod.fst).mergeSort (fun a b => decide (a ≤ b))
    some (dates, dates.map (fun d => (lookupKey daily_time d).getD 0))

/-! ### `gui_components.py`: the study input form -/

/-- The mutable widget contents of `StudyInputForm`: the two entry fields, the
productivity variable, the productivity description label, and the notes text
widget (modelled as its content, without the trailing newline the Tk text
widget appends on `get("1.0", tk.END)`). -/
structure FormState where
  subject_entry : String
  duration_entry : String
  productivity_var : Int
  productivity_label : String
  notes_text : String
deriving DecidableEq, Repr

/-- Modelled from the spec: `MessageGenerator.get_productivity_label` lives in
`utils.py`, which is not part of the visible source. The spec fixes a pure
mapping from productivity level 1–5 to an ascending descriptive label
(1 → "Poor" style), with 3 → "Good" matching the form's initial label text
"3 - Good"; the exact wording of the other labels is a presentation detail. -/
def get_productivity_label (value : Int) : String :=
  if value = 1 then "1 - Poor"
  else if value = 2 then "2 - Fair"
  else if value = 3 then "3 - Good"
  else if value = 4 then "4 - Very Good"
  else "5 - Excellent"

/-- `StudyInputForm._update_productivity_label`: set the label text to the
description of the given level (`int(float(value))` is the identity on the
integer values passed here). -/
def update_productivity_label (st : FormState) (value : Int) : FormState :=
  { st with productivity_label := get_productivity_label value }

/-- Python `str.strip()` on the character-list level: drop whitespace from the
front, then from the back (dropping from the back is dropping from the front
of the reversal). -/
def stripChars (l : List Char) : List Char :=
  ((l.dropWhile Char.isWhitespace).reverse.dropWhile Char.isWhitespace).reverse

/-- Python `str.strip()`. -/
def pyStrip (s : String) : String := String.mk (stripChars s.data)

/-- The record returned by `StudyInputForm.get_values`. -/
structure FormValues where
  subject : String
  duration : String
  productivity : Int
  notes : String
deriving DecidableEq, Repr

/-- `StudyInputForm.get_values`: each text field stripped of surrounding
whitespace (the notes text comes back from the widget with a trailing
newline), the productivity variable returned as the integer it holds. -/
def get_values (st : FormState) : FormValues :=
  { subject := pyStrip st.subject_entry
    duration := pyStrip st.duration_entry
    productivity := st.productivity_var
    notes := pyStrip (st.notes_text ++ "\n") }

/-- `StudyInputForm.clear`: empty both entries, reset the productivity
variable to 3, empty the notes widget, and refresh the description label. -/
def clear (st : FormState) : FormState :=
  let st1 := { st with subject_entry := "" }
  let st2 := { st1 with duration_entry := "" }
  let st3 := { st2 with productivity_var := 3 }
  let st4 := { st3 with notes_text := "" }
  update_productivity_label st4 3

/-! ### Helper lemmas -/

/-- Every month length used by the embedding is at most 31. -/
theorem daysInMonth_le (y m : Nat) : daysInMonth y m ≤ 31 := by
  unfold daysInMonth
  split
  · split <;> omega
  · split <;> omega

/-- A successfully parsed timestamp has its date fields in `datetime`'s valid
ranges. -/
theorem parseTimestamp_bounds {s : String} {d : Date}
    (h : parseTimestamp s = some d) :
    1 ≤ d.year ∧ 1 ≤ d.month ∧ d.month ≤ 12 ∧ 1 ≤ d.day ∧ d.day ≤ 31 := by
  unfold parseTimestamp at h
  repeat' split at h
  all_goals try exact Option.noConfusion h
  rename_i hcond
  obtain ⟨-, hy, hm1, hm2, hd1, hd2, -⟩ := hcond
  cases h
  exact ⟨hy, hm1, hm2, hd1, hd2.trans (daysInMonth_le _ _)⟩

/-- `Nat.digitChar` is injective below 10. -/
theorem digitChar_inj_lt :
    ∀ a < 10, ∀ b < 10, Nat.digitChar a = Nat.digitChar b → a = b := by decide

/-- Two-digit zero-padding is injective below 100. -/
theorem pad2_inj {a b : Nat} (ha : a ≤ 99) (hb : b ≤ 99) (h : pad2 a = pad2 b) :
    a = b := by
  simp only [pad2, List.cons.injEq, and_true] at h
  obtain ⟨h1, h2⟩ := h
  have d1 : a / 10 = b / 10 :=
    digitChar_inj_lt _ (by omega) _ (by omega) h1
  have d2 : a % 10 = b % 10 :=
    digitChar_inj_lt _ (by omega) _ (by omega) h2
  omega

/-- On dates with in-range fields, the `"%m/%d"` key determines the month and
the day (and conversely) — but says nothing about the year. -/
theorem dateKey_eq_iff {d1 d2 : Date}
    (h1m : d1.month ≤ 99) (h1d : d1.day ≤ 99)
    (h2m : d2.month ≤ 99) (h2d : d2.day ≤ 99) :
    dateKey d1 = dateKey d2 ↔ d1.month = d2.month ∧ d1.day = d2.day := by
  constructor
  · intro h
    have h' : pad2 d1.month ++ '/' :: pad2 d1.day = pad2 d2.month ++ '/' :: pad2 d2.day :=
      congrArg String.data h
    have hm : pad2 d1.month = pad2 d2.month := by
      have := congrArg (fun l => List.take 2 l) h'
      simpa [pad2] using this
    have hd : pad2 d1.day = pad2 d2.day := by
      have := congrArg (fun l => List.drop 3 l) h'
      simpa [pad2] using this
    exact ⟨pad2_inj h1m h2m hm, pad2_inj h1d h2d hd⟩
  · intro ⟨hm, hd⟩
    simp [dateKey, hm, hd]

/-- Looking up the key just inserted: the stored value grows by `v` (from a
default of 0 when the key was absent), exactly `d.get(k, 0) + v`. -/
theorem lookupKey_insertAdd_self (acc : List (String × Int)) (k : String) (v : Int) :
    lookupKey (insertAdd acc k v) k = some ((lookupKey acc k).getD 0 + v) := by
  induction acc with
  | nil => simp [insertAdd, lookupKey]
  | cons p rest ih =>
    obtain ⟨k', v'⟩ := p
    by_cases h : k' = k
    · subst h
      simp [insertAdd, lookupKey]
    · simp [insertAdd, lookupKey, h, ih]

/-- Inserting under a different key leaves a lookup unchanged. -/
theorem lookupKey_insertAdd_ne (acc : List (String × Int)) {k' k : String}
    (hne : k' ≠ k) (v : Int) :
    lookupKey (insertAdd acc k' v) k = lookupKey acc k := by
  induction acc with
  | nil => simp [insertAdd, lookupKey, hne]
  | cons p rest ih =>
    obtain ⟨k'', v''⟩ := p
    by_cases h : k'' = k'
    · subst h
      simp [insertAdd, lookupKey, hne]
    · by_cases h2 : k'' = k
      · subst h2
        simp [insertAdd, lookupKey, h]
      · simp [insertAdd, lookupKey, h, h2, ih]

/-- Running the grouping loop from any accumulator: a key absent from the
processed sessions keeps its accumulator value; a present key ends at its
accumulator value (default 0) plus the durations of the matching sessions. -/
theorem lookupKey_foldl_dailyStep (k : String) (ss : List Session) :
    ∀ acc : List (String × Int),
      lookupKey (List.foldl dailyStep acc ss) k =
        if ss.filter (fun s => sessionKey s = some k) = [] then lookupKey acc k
        else some ((lookupKey acc k).getD 0 +
          ((ss.filter (fun s => sessionKey s = some k)).map (·.duration)).sum) := by
  induction ss with
  | nil => intro acc; simp
  | cons s ss ih =>
    intro acc
    rw [List.foldl_cons, ih]
    match hs : sessionKey s with
    | none =>
      have hcond : ¬ (sessionKey s = some k) := by simp [hs]
      rw [List.filter_cons_of_neg (by simpa using hcond)]
      simp [dailyStep, hs]
    | some k' =>
      by_cases hk : k' = k
      · subst hk
        have hstep : dailyStep acc s = insertAdd acc k' s.duration := by
          simp [dailyStep, hs]
        rw [List.filter_cons_of_pos (by simpa using hs), hstep]
        by_cases hemp : ss.filter (fun s => sessionKey s = some k') = []
        · simp [hemp, lookupKey_insertAdd_self]
        · simp only [hemp, if_neg hemp, if_neg (by simp [hemp] : ¬(s :: ss.filter
            (fun s => sessionKey s = some k') = []))]
          rw [lookupKey_insertAdd_self]
          simp [Int.add_assoc]
      · have hcond : ¬ (sessionKey s = some k) := by simp [hs, hk]
        have hstep : dailyStep acc s = insertAdd acc k' s.duration := by
          simp [dailyStep, hs]
        rw [List.filter_cons_of_neg (by simpa using hcond), hstep,
          lookupKey_insertAdd_ne _ hk]

/-- The daily grouping characterised pointwise: each key holds the sum of the
durations of exactly the sessions whose (parsed) timestamp renders to that
`"%m/%d"` key, and keys no session renders to are absent. -/
theorem dailyTime_lookup (ss : List Session) (k : String) :
    lookupKey (dailyTime ss) k =
      if ss.filter (fun s => sessionKey s = some k) = [] then none
      else some (((ss.filter (fun s => sessionKey s = some k)).map (·.duration)).sum) := by
  rw [dailyTime, lookupKey_foldl_dailyStep]
  simp [lookupKey]

/-- A session with an unparsable timestamp is a no-op for the grouping loop,
from any accumulator. -/
theorem foldl_dailyStep_filter_parsable (ss : List Session) :
    ∀ acc : List (String × Int),
      List.foldl dailyStep acc ss =
        List.foldl dailyStep acc
          (ss.filter (fun s => (parseTimestamp s.timestamp).isSome)) := by
  induction ss with
  | nil => intro acc; simp
  | cons s ss ih =>
    intro acc
    match hp : parseTimestamp s.timestamp with
    | none =>
      have hstep : dailyStep acc s = acc := by simp [dailyStep, sessionKey, hp]
      rw [List.foldl_cons, hstep,
        List.filter_cons_of_neg (by simp [hp]), ih]
    | some d =>
      rw [List.foldl_cons, List.filter_cons_of_pos (by simp [hp]),
        List.foldl_cons, ih]

/-- Inserting a duration grows the total of the stored values by exactly that
duration. -/
theorem sndSum_insertAdd (acc : List (String × Int)) (k : String) (v : Int) :
    ((insertAdd acc k v).map Prod.snd).sum = (acc.map Prod.snd).sum + v := by
  induction acc with
  | nil => simp [insertAdd]
  | cons p rest ih =>
    obtain ⟨k', v'⟩ := p
    by_cases h : k' = k
    · subst h
      simp [insertAdd, Int.add_assoc, Int.add_comm v]
    · simp [insertAdd, h, ih, Int.add_assoc]

/-- Running the grouping loop adds exactly the parsable sessions' durations to
the total of the stored values. -/
theorem sndSum_foldl_dailyStep (ss : List Session) :
    ∀ acc : List (String × Int),
      ((List.foldl dailyStep acc ss).map Prod.snd).sum =
        (acc.map Prod.snd).sum +
          ((ss.filter (fun s => (parseTimestamp s.timestamp).isSome)).map
            (·.duration)).sum := by
  induction ss with
  | nil => intro acc; simp
  | cons s ss ih =>
    intro acc
    match hp : parseTimestamp s.timestamp with
    | none =>
      have hstep : dailyStep acc s = acc := by simp [dailyStep, sessionKey, hp]
      rw [List.foldl_cons, hstep, List.filter_cons_of_neg (by simp [hp]), ih]
    | some d =>
      have hstep : dailyStep acc s = insertAdd acc (dateKey d) s.duration := by
        simp [dailyStep, sessionKey, hp]
      rw [List.foldl_cons, hstep, List.filter_cons_of_pos (by simp [hp]), ih,
        sndSum_insertAdd]
      simp [Int.add_assoc, Int.add_comm s.duration]

/-- The first element surviving `dropWhile p` fails `p`. -/
theorem head?_dropWhile_not (p : Char → Bool) (l : List Char) (c : Char)
    (h : (l.dropWhile p).head? = some c) : p c = false := by
  induction l with
  | nil => simp at h
  | cons a l ih =>
    by_cases ha : p a
    · rw [List.dropWhile_cons_of_pos ha] at h
      exact ih h
    · rw [List.dropWhile_cons_of_neg ha] at h
      simp only [List.head?_cons, Option.some.injEq] at h
      subst h
      exact Bool.eq_false_iff.mpr ha

/-- `dropWhile` keeps the last element of the list, when anything survives. -/
theorem getLast?_dropWhile (p : Char → Bool) (l : List Char) (c : Char)
    (h : (l.dropWhile p).getLast? = some c) : l.getLast? = some c := by
  induction l with
  | nil => simp at h
  | cons a l ih =>
    by_cases ha : p a
    · rw [List.dropWhile_cons_of_pos ha] at h
      have hl := ih h
      match l, hl with
      | b :: l', hl => rw [List.getLast?_cons_cons]; exact hl
    · rw [List.dropWhile_cons_of_neg ha] at h
      exact h

/-- The first character of a stripped string is not whitespace. -/
theorem stripChars_head {l : List Char} {c : Char}
    (h : (stripChars l).head? = some c) : c.isWhitespace = false := by
  unfold stripChars at h
  rw [List.head?_reverse] at h
  have h2 := getLast?_dropWhile _ _ _ h
  rw [List.getLast?_reverse] at h2
  exact head?_dropWhile_not _ _ _ h2

/-- The last character of a stripped string is not whitespace. -/
theorem stripChars_getLast {l : List Char} {c : Char}
    (h : (stripChars l).getLast? = some c) : c.isWhitespace = false := by
  unfold stripChars at h
  rw [List.getLast?_reverse] at h
  exact head?_dropWhile_not _ _ _ h

/-- A string neither starts nor ends with whitespace. -/
def noEdgeWhitespace (s : String) : Prop :=
  (∀ c, s.data.head? = some c → c.isWhitespace = false) ∧
  (∀ c, s.data.getLast? = some c → c.isWhitespace = false)

/-- Stripping produces a string with no surrounding whitespace. -/
theorem noEdgeWhitespace_pyStrip (s : String) : noEdgeWhitespace (pyStrip s) :=
  ⟨fun _ h => stripChars_head h, fun _ h => stripChars_getLast h⟩

/-- Casting an integer-valued list sum into `ℚ` commutes with summing the
casts. -/
theorem intListSum_cast {α : Type} (l : List α) (f : α → Int) :
    (((l.map f).sum : Int) : ℚ) = (l.map (fun a => ((f a : Int) : ℚ))).sum := by
  induction l with
  | nil => simp
  | cons a l ih => simp [ih]

/-! ### Behaviour of the embedded parser on sample inputs -/

example : parseTimestamp "2023-01-05 10:00:00" = some ⟨2023, 1, 5⟩ := by decide
example : parseTimestamp "bad-date" = none := by decide
example : parseTimestamp "2023-02-30 10:00:00" = none := by decide
example : parseTimestamp "2024-02-29 10:00:00" = some ⟨2024, 2, 29⟩ := by decide
example : dateKey ⟨2023, 1, 5⟩ = "01/05" := by decide

/-! ### The claims -/

/-- C2: a session whose timestamp string does not parse in the format
`YYYY-MM-DD HH:MM:SS` is skipped by the day-grouping in
`create_daily_study_chart` — it contributes to no bucket, no error is raised
(the embedding is total), and the grouping of the remaining parsable sessions
is unchanged. -/
theorem dailyTime_skips_unparsable (ss : List Session) :
    dailyTime ss =
      dailyTime (ss.filter (fun s => (parseTimestamp s.timestamp).isSome)) :=
  foldl_dailyStep_filter_parsable ss []

/-- C4: on the empty session collection (and the empty subject-time mapping),
every chart transform returns immediately, rendering nothing; in particular
the average computation of `create_productivity_chart` is never reached, so no
division by zero occurs. -/
theorem charts_empty_input :
    create_pie_chart [] = none ∧ create_bar_chart [] = none ∧
    create_productivity_chart [] = none ∧ create_daily_study_chart [] = none :=
  ⟨rfl, rfl, rfl, rfl⟩

/-- C6: the values of the daily-time mapping built by
`create_daily_study_chart` sum to exactly the total duration of the sessions
whose timestamp parses: nothing is double-counted and no parsable session's
duration is lost. -/
theorem dailyTime_total_duration (ss : List Session) :
    ((dailyTime ss).map Prod.snd).sum =
      ((ss.filter (fun s => (parseTimestamp s.timestamp).isSome)).map
        (·.duration)).sum := by
  rw [dailyTime, sndSum_foldl_dailyStep]
  simp

/-- C8: after `clear()`, every field of the input form is at its default:
both entries empty, notes empty, productivity 3, and the live description
label showing the label for level 3 — regardless of the previous state. -/
theorem clear_resets (st : FormState) :
    (clear st).subject_entry = "" ∧ (clear st).duration_entry = "" ∧
    (clear st).notes_text = "" ∧ (clear st).productivity_var = 3 ∧
    (clear st).productivity_label = get_productivity_label 3 :=
  ⟨rfl, rfl, rfl, rfl, rfl⟩

/-- C3: for a non-empty session list, the average drawn by
`create_productivity_chart` is the arithmetic mean of the sessions'
productivity fields (exact over `ℚ`, so certainly within floating-point
tolerance). -/
theorem create_productivity_chart_average (ss : List Session) (h : ss ≠ []) :
    (create_productivity_chart ss).map (fun t => t.2.2) =
      some ((ss.map (fun s => ((s.productivity : Int) : ℚ))).sum /
        (ss.length : ℚ)) := by
  simp only [create_productivity_chart, if_neg h, Option.map_some']
  congr 1
  rw [avg_productivity, productivity_scores, List.length_map,
    intListSum_cast ss (fun s => s.productivity)]

/-- The C3 average theorem applied to two concrete sessions with productivity
4 and 2: the drawn average is 3. -/
theorem create_productivity_chart_average_witness :
    (create_productivity_chart
        [Session.mk "Math" 30 4 "" "2023-01-05 10:00:00",
         Session.mk "History" 50 2 "" "2023-01-06 10:00:00"]).map (fun t => t.2.2) =
      some 3 := by
  have h := create_productivity_chart_average
    [Session.mk "Math" 30 4 "" "2023-01-05 10:00:00",
     Session.mk "History" 50 2 "" "2023-01-06 10:00:00"] (by simp)
  rw [h]
  norm_num

/-- C10: for a non-empty session list, `create_productivity_chart` plots the
pairs (session number, productivity) in input order: the index sequence is
exactly `1..n` and the i-th plotted score is the i-th session's productivity
field. -/
theorem create_productivity_chart_trend (ss : List Session) (h : ss ≠ []) :
    ∃ nums scores avg, create_productivity_chart ss = some (nums, scores, avg) ∧
      nums.length = ss.length ∧ scores.length = ss.length ∧
      (∀ i, i < ss.length → nums[i]? = some (i + 1)) ∧
      (∀ i : Nat, scores[i]? = (ss[i]?).map (fun s : Session => s.productivity)) := by
  refine ⟨session_numbers ss, productivity_scores ss, avg_productivity ss,
    by simp [create_productivity_chart, h], ?_, ?_, ?_, ?_⟩
  · simp [session_numbers]
  · simp [productivity_scores]
  · intro i hi
    rw [session_numbers, List.getElem?_range' _ _ hi]
    simp [Nat.add_comm]
  · intro i
    simp [productivity_scores]

/-- The C10 trend theorem applied to two concrete sessions. -/
theorem create_productivity_chart_trend_witness :
    ∃ nums scores avg,
      create_productivity_chart
          [Session.mk "Math" 30 4 "" "2023-01-05 10:00:00",
           Session.mk "History" 50 2 "" "2023-01-06 10:00:00"] =
        some (nums, scores, avg) ∧
      nums.length = 2 ∧ scores.length = 2 ∧
      (∀ i, i < 2 → nums[i]? = some (i + 1)) ∧
      (∀ i : Nat, scores[i]? =
        (([Session.mk "Math" 30 4 "" "2023-01-05 10:00:00",
           Session.mk "History" 50 2 "" "2023-01-06 10:00:00"] : List Session)[i]?).map
          (fun s : Session => s.productivity)) :=
  create_productivity_chart_trend _ (by simp)

/-- C7: for a non-empty subject-time mapping, `create_bar_chart` presents the
subjects sorted by descending total time: the plotted time sequence is
non-increasing, and the plotted subject/time pairs are exactly the input
pairs (each subject keeps its own total). -/
theorem create_bar_chart_sorted_desc (st : List (String × Int)) (h : st ≠ []) :
    ∃ subjects times, create_bar_chart st = some (subjects, times) ∧
      times.Pairwise (· ≥ ·) ∧ (subjects.zip times).Perm st := by
  refine ⟨(sorted_subjects st).map Prod.fst, (sorted_subjects st).map Prod.snd,
    by simp [create_bar_chart, h], ?_, ?_⟩
  · have htrans : ∀ a b c : String × Int, barLE a b → barLE b c → barLE a c := by
      intro a b c hab hbc
      simp only [barLE, decide_eq_true_eq] at *
      exact le_trans hbc hab
    have htotal : ∀ a b : String × Int, barLE a b || barLE b a := by
      intro a b
      simp only [barLE]
      simpa using le_total b.2 a.2
    have hs := List.sorted_mergeSort htrans htotal st
    exact List.Pairwise.map Prod.snd
      (fun a b hab => by simpa [barLE] using hab) hs
  · have hz : sorted_subjects st =
        ((sorted_subjects st).map Prod.fst).zip ((sorted_subjects st).map Prod.snd) :=
      List.zip_of_prod rfl rfl
    rw [← hz]
    simpa [sorted_subjects] using List.mergeSort_perm st barLE

/-- The C7 bar-chart theorem applied to a concrete two-subject mapping. -/
theorem create_bar_chart_sorted_desc_witness :
    ∃ subjects times,
      create_bar_chart [("Math", (30 : Int)), ("History", 50)] = some (subjects, times) ∧
      times.Pairwise (· ≥ ·) ∧
      (subjects.zip times).Perm [("Math", (30 : Int)), ("History", 50)] :=
  create_bar_chart_sorted_desc _ (by simp)

/-- C9: `get_values()` returns the three text fields stripped of leading and
trailing whitespace (the duration is kept as text, not parsed) and the
integer held by the productivity control; no returned text field starts or
ends with whitespace. -/
theorem get_values_trimmed (st : FormState) :
    (get_values st).subject = pyStrip st.subject_entry ∧
    (get_values st).duration = pyStrip st.duration_entry ∧
    (get_values st).notes = pyStrip (st.notes_text ++ "\n") ∧
    (get_values st).productivity = st.productivity_var ∧
    noEdgeWhitespace (get_values st).subject ∧
    noEdgeWhitespace (get_values st).duration ∧
    noEdgeWhitespace (get_values st).notes :=
  ⟨rfl, rfl, rfl, rfl, noEdgeWhitespace_pyStrip _, noEdgeWhitespace_pyStrip _,
    noEdgeWhitespace_pyStrip _⟩

/-- The C9 theorem applied to a concrete form state with padded fields. -/
theorem get_values_trimmed_witness :
    (get_values ⟨"  Math  ", " 45 ", 4, "4 - Very Good", "went well"⟩).subject =
        pyStrip "  Math  " ∧
    (get_values ⟨"  Math  ", " 45 ", 4, "4 - Very Good", "went well"⟩).duration =
        pyStrip " 45 " ∧
    (get_values ⟨"  Math  ", " 45 ", 4, "4 - Very Good", "went well"⟩).notes =
        pyStrip ("went well" ++ "\n") ∧
    (get_values ⟨"  Math  ", " 45 ", 4, "4 - Very Good", "went well"⟩).productivity = 4 ∧
    noEdgeWhitespace (get_values ⟨"  Math  ", " 45 ", 4, "4 - Very Good", "went well"⟩).subject ∧
    noEdgeWhitespace (get_values ⟨"  Math  ", " 45 ", 4, "4 - Very Good", "went well"⟩).duration ∧
    noEdgeWhitespace (get_values ⟨"  Math  ", " 45 ", 4, "4 - Very Good", "went well"⟩).notes :=
  get_values_trimmed ⟨"  Math  ", " 45 ", 4, "4 - Very Good", "went well"⟩

/-- C5: permuting the input sessions leaves the daily-time mapping unchanged
as a mapping: every key is bound to the same summed duration (or absent in
both). -/
theorem dailyTime_perm_invariant (ss ss' : List Session) (h : ss.Perm ss') :
    ∀ k, lookupKey (dailyTime ss) k = lookupKey (dailyTime ss') k := by
  intro k
  rw [dailyTime_lookup, dailyTime_lookup]
  have hf : (ss.filter (fun s => sessionKey s = some k)).Perm
      (ss'.filter (fun s => sessionKey s = some k)) := h.filter _
  by_cases hemp : ss.filter (fun s => sessionKey s = some k) = []
  · have hemp' : ss'.filter (fun s => sessionKey s = some k) = [] := by
      rw [hemp] at hf
      exact hf.symm.eq_nil
    rw [if_pos hemp, if_pos hemp']
  · have hemp' : ¬ ss'.filter (fun s => sessionKey s = some k) = [] := by
      intro hc
      rw [hc] at hf
      exact hemp hf.eq_nil
    rw [if_neg hemp, if_neg hemp']
    congr 1
    exact (hf.map (fun s : Session => s.duration)).sum_eq

/-- The C5 permutation theorem applied to a concrete swap of two sessions. -/
theorem dailyTime_perm_invariant_witness :
    lookupKey (dailyTime [Session.mk "Math" 30 4 "" "2023-01-05 10:00:00",
        Session.mk "History" 50 2 "" "2023-01-06 09:00:00"]) "01/05" =
      lookupKey (dailyTime [Session.mk "History" 50 2 "" "2023-01-06 09:00:00",
        Session.mk "Math" 30 4 "" "2023-01-05 10:00:00"]) "01/05" :=
  dailyTime_perm_invariant _ _
    (List.Perm.swap (Session.mk "History" 50 2 "" "2023-01-06 09:00:00")
      (Session.mk "Math" 30 4 "" "2023-01-05 10:00:00") []) "01/05"

/-- C1, counterexample: the grouping key is `strftime("%m/%d")`, which drops
the year, so two sessions whose timestamps have different date portions
(2023-01-05 and 2024-01-05) land in the same bucket, and that bucket holds
the sum of both durations rather than a per-date sum. -/
theorem dailyTime_year_collision :
    parseTimestamp "2023-01-05 10:00:00" ≠ parseTimestamp "2024-01-05 09:30:00" ∧
    sessionKey (Session.mk "Math" 10 3 "" "2023-01-05 10:00:00") =
      sessionKey (Session.mk "History" 20 4 "" "2024-01-05 09:30:00") ∧
    dailyTime [Session.mk "Math" 10 3 "" "2023-01-05 10:00:00",
        Session.mk "History" 20 4 "" "2024-01-05 09:30:00"] = [("01/05", 30)] :=
  ⟨by decide, by decide, by decide⟩

/-- C1, amended: the daily grouping maps each month-day key to the sum of
the durations of exactly the sessions whose timestamp parses and renders to
that `"%m/%d"` key, and two parsable sessions fall in the same bucket iff
their timestamps agree on month and day (the year is not part of the key). -/
theorem dailyTime_monthday_buckets (ss : List Session) :
    (∀ k, lookupKey (dailyTime ss) k =
        if ss.filter (fun s => sessionKey s = some k) = [] then none
        else some (((ss.filter (fun s => sessionKey s = some k)).map
          (fun s : Session => s.duration)).sum)) ∧
    (∀ s1 s2 : Session, ∀ d1 d2 : Date,
        parseTimestamp s1.timestamp = some d1 →
        parseTimestamp s2.timestamp = some d2 →
        (sessionKey s1 = sessionKey s2 ↔ d1.month = d2.month ∧ d1.day = d2.day)) := by
  constructor
  · intro k
    exact dailyTime_lookup ss k
  · intro s1 s2 d1 d2 h1 h2
    obtain ⟨-, hm1a, hm1b, hd1a, hd1b⟩ := parseTimestamp_bounds h1
    obtain ⟨-, hm2a, hm2b, hd2a, hd2b⟩ := parseTimestamp_bounds h2
    rw [sessionKey, sessionKey, h1, h2, Option.map_some', Option.map_some',
      Option.some_inj]
    exact dateKey_eq_iff (by omega) (by omega) (by omega) (by omega)

/-- The C1 amended theorem applied to two concrete sessions a year apart on
January 5: they share the bucket "01/05", and the bucket iff-criterion
evaluates on their parsed dates. -/
theorem dailyTime_monthday_buckets_witness :
    (lookupKey (dailyTime [Session.mk "Math" 10 3 "" "2023-01-05 10:00:00",
        Session.mk "History" 20 4 "" "2024-01-05 09:30:00"]) "01/05" =
      if ([Session.mk "Math" 10 3 "" "2023-01-05 10:00:00",
          Session.mk "History" 20 4 "" "2024-01-05 09:30:00"] : List Session).filter
          (fun s => sessionKey s = some "01/05") = [] then none
      else some (((([Session.mk "Math" 10 3 "" "2023-01-05 10:00:00",
          Session.mk "History" 20 4 "" "2024-01-05 09:30:00"] : List Session).filter
          (fun s => sessionKey s = some "01/05")).map
          (fun s : Session => s.duration)).sum)) ∧
    (sessionKey (Session.mk "Math" 10 3 "" "2023-01-05 10:00:00") =
        sessionKey (Session.mk "History" 20 4 "" "2024-01-05 09:30:00") ↔
      (Date.mk 2023 1 5).month = (Date.mk 2024 1 5).month ∧
        (Date.mk 2023 1 5).day = (Date.mk 2024 1 5).day) :=
  ⟨(dailyTime_monthday_buckets _).1 "01/05",
    (dailyTime_monthday_buckets []).2
      (Session.mk "Math" 10 3 "" "2023-01-05 10:00:00")
      (Session.mk "History" 20 4 "" "2024-01-05 09:30:00")
      (Date.mk 2023 1 5) (Date.mk 2024 1 5) (by decide) (by decide)⟩
